import Mathlib

/-!
Verification development for the eval-recipes benchmark harness
(src/eval_recipes/benchmarking/harness.py and semantic_test.py).

The Python code is shallowly embedded: pure helpers become Lean
functions; the Docker-effectful orchestrator loop becomes a step
function producing a trace of events, parameterised by an oracle that
fixes the outcome of each external call (whether a docker operation
raises, what the scorecard file contains, and so on).  JSON values are
modelled by an inductive type with rational numbers standing in for
Python floats (all arithmetic the code performs on scores is exact on
the values at issue).  Association lists stand in for Python dicts;
lists read back from parsed JSON have unique keys, which theorems
assume where it matters.
-/

set_option autoImplicit false

namespace EvalRecipes

/-- A JSON value as produced by json.loads.  Python floats are modelled
by rationals.  -/
inductive JValue where
  | null
  | bool (b : Bool)
  | num (q : Rat)
  | str (s : String)
  | arr (xs : List JValue)
  | obj (fields : List (String × JValue))

/-- Modelled from the spec: TaskInfo of schemas.py (the schemas module
itself is not in the sources; its field set is pinned by the spec data
model and by the loader in harness.py).  -/
structure TaskInfo where
  difficulty : String
  non_deterministic_evals : Bool

/-- Modelled from the spec: AgentConfig of schemas.py, fields as used
by harness.py and listed in the spec data model.  -/
structure AgentConfig where
  name : String
  required_env_vars : List String
  agent_installation : String
  command_template : String

/-- Modelled from the spec: TaskConfig of schemas.py, fields as used by
harness.py.  test_script and test_commands_script are file paths; only
presence of the optional commands script matters to the harness logic
modelled here.  -/
structure TaskConfig where
  name : String
  required_env_vars : List String
  task_installation : String
  instructions : String
  test_script : String
  test_commands_script : Option String
  task_info : TaskInfo

/-- Modelled from the spec: TestResult of schemas.py, the scorecard
produced by the test runner: score, open-keyed metadata, captured test
output.  -/
structure TestResult where
  score : Rat
  metadata : List (String × JValue)
  test_output : String

/-- The process environment captured by the harness, a string-keyed
mapping (Python dict).  -/
abbrev Env := List (String × String)

/-- The deduplicated union set(agent.required_env_vars +
task.required_env_vars) computed by the harness.  -/
def requiredVars (agent : AgentConfig) (task : TaskConfig) : List String :=
  (agent.required_env_vars ++ task.required_env_vars).dedup

/-- Harness._validate_required_env_vars: returns (success, missing)
where missing lists the required variables absent from the
environment and success holds when missing is empty.  -/
def validate_required_env_vars (env : Env) (agent : AgentConfig) (task : TaskConfig) :
    Bool × List String :=
  let missing := (requiredVars agent task).filter (fun v => (env.lookup v).isNone)
  (missing.isEmpty, missing)

/-- Harness._get_container_env_vars: the dict comprehension
mapping each required variable present in the environment to its
value; required variables absent from the environment are silently
dropped.  -/
def get_container_env_vars (env : Env) (agent : AgentConfig) (task : TaskConfig) :
    List (String × String) :=
  (requiredVars agent task).filterMap (fun v => (env.lookup v).map (fun s => (v, s)))

/-- Python float(x) applied to a parsed JSON value: numbers convert to
themselves, booleans to 0 or 1, anything else fails the conversion.
(float on numeric strings is not modelled; no theorem below depends on
it.)  -/
def pyFloat : JValue → Option Rat
  | .num q => some q
  | .bool b => some (if b then 1 else 0)
  | _ => none

/-- dict.pop(k) viewed on the association list: the mapping with key k
removed.  Parsed JSON objects have unique keys, so filtering every
pair with that key coincides with the Python dict operation.  -/
def popKey (k : String) (fields : List (String × JValue)) : List (String × JValue) :=
  fields.filter (fun p => p.1 ≠ k)

/-- SemanticTestResult of semantic_test.py: score clamped to [0, 100]
by the field validator, metadata holding the remaining rubric
fields.  -/
structure SemanticTestResult where
  score : Rat
  metadata : List (String × JValue)

/-- The pydantic field validator validate_score runs at construction:
max(0.0, min(100.0, v)).  -/
def mkSemanticTestResult (score : Rat) (metadata : List (String × JValue)) :
    SemanticTestResult :=
  { score := max 0 (min 100 score), metadata := metadata }

/-- State of working_dir/audit_output/rubric.json after the two audit
turns: missing (exists() is false), present but rejected by
json.loads, or present with a parsed value.  -/
inductive AuditFile where
  | missing
  | unparseable
  | content (v : JValue)

/-- The exceptions semantic_test can raise: ValueError when the rubric
argument lacks a score field, FileNotFoundError when the rubric file
is absent, json.JSONDecodeError on unparseable contents, KeyError when
the parsed object lacks a score key, TypeError when the parsed value
is not an object or its score is not float-convertible.  -/
inductive SemErr where
  | invalidRubric
  | rubricMissing
  | jsonDecodeError
  | scoreKeyError
  | typeError

/-- Observable interactions of semantic_test with the audit sub-agent:
the two client.query turns.  -/
inductive SemEvent where
  | queryAudit
  | queryGenerate
deriving DecidableEq

/-- semantic_test of semantic_test.py.  steps and context only feed
the rendered prompt texts, abstracted here into the two query events;
the state of the rubric file after the two turns is the file argument.
Returns the emitted events together with the result or the raised
exception.  -/
def semantic_test (steps context : String) (rubric : List (String × JValue))
    (file : AuditFile) : List SemEvent × Except SemErr SemanticTestResult :=
  let _ := steps
  let _ := context
  if (rubric.lookup "score").isNone then
    ([], .error .invalidRubric)
  else
    let events := [SemEvent.queryAudit, SemEvent.queryGenerate]
    match file with
    | .missing => (events, .error .rubricMissing)
    | .unparseable => (events, .error .jsonDecodeError)
    | .content v =>
      match v with
      | .obj fields =>
        match fields.lookup "score" with
        | none => (events, .error .scoreKeyError)
        | some sv =>
          match pyFloat sv with
          | none => (events, .error .typeError)
          | some q => (events, .ok (mkSemanticTestResult q (popKey "score" fields)))
      | _ => (events, .error .typeError)

/-- Outcome of reading the scorecard file inside the container:
cat exits nonzero (file absent), cat succeeds but json.loads raises,
or a parsed JSON value.  -/
inductive ScorecardRead where
  | absent
  | unparseable
  | value (v : JValue)

/-- Oracle fixing the outcome of each external call made by
Harness._run_tests: whether put_archive raises, whether the exec of
test_commands.sh raises at the exec_run call, whether the exec of the
test script raises at the exec_run call, the scorecard read, and the
decoded test output text collected from the stream.  -/
structure TestsOracle where
  putArchiveRaises : Bool
  commandsExecRaises : Bool
  testExecRaises : Bool
  scorecard : ScorecardRead
  testOutput : String

/-- Harness._run_tests.  Returns the list of file names written into
run_dir, in order, together with the returned TestResult (none models
the except-branch returning None).  Exceptions from any step are
caught by the surrounding try and yield none, keeping the writes made
so far.  The fallback when the scorecard file is absent returns score
0 with the error metadata WITHOUT writing test_results.json, which is
written only when the scorecard was read and parsed successfully.  -/
def run_tests (task : TaskConfig) (o : TestsOracle) : List String × Option TestResult :=
  if o.putArchiveRaises then ([], none)
  else if task.test_commands_script.isSome && o.commandsExecRaises then ([], none)
  else
    let evs0 := if task.test_commands_script.isSome then ["test_commands_output.log"] else []
    if o.testExecRaises then (evs0, none)
    else
      let evs1 := evs0 ++ ["test_output.log"]
      match o.scorecard with
      | .absent =>
        (evs1, some { score := 0
                      metadata := [("error", JValue.str "No results file found")]
                      test_output := o.testOutput })
      | .unparseable => (evs1, none)
      | .value v =>
        match v with
        | .obj fields =>
          match fields.lookup "score" with
          | none => (evs1, none)
          | some sv =>
            match pyFloat sv with
            | none => (evs1, none)
            | some q =>
              match (fields.lookup "metadata").getD (.obj []) with
              | .obj m =>
                (evs1 ++ ["test_results.json"],
                 some { score := q, metadata := m, test_output := o.testOutput })
              | _ => (evs1, none)
        | _ => (evs1, none)

/-- Observable events of one pass of the orchestrator loop body.  -/
inductive Event where
  | skippedEnv (agent task : String) (missing : List String)
  | imageBuilt (tag : String)
  | containerCreated (id : String)
  | wroteFile (file : String)
  | containerRemoved (id : String)
  | imageRemoved (tag : String)
deriving DecidableEq

/-- The deterministic image tag f-string of Harness.run.  -/
def imageTag (agent : AgentConfig) (task : TaskConfig) : String :=
  ("benchmark-" ++ agent.name ++ "-" ++ task.name).toLower

/-- Oracle fixing the outcome of each docker call in one pass of the
loop body of Harness.run: whether images.build raises, whether
containers.run raises, the id of the created container, whether the
agent exec_run call raises, whether container.logs() is nonempty, and
whether the two cleanup calls raise.  -/
structure PairOracle where
  buildRaises : Bool
  runRaises : Bool
  containerId : String
  agentExecRaises : Bool
  logsNonempty : Bool
  removeContainerRaises : Bool
  removeImageRaises : Bool

/-- One pass of the loop body of Harness.run for a single
(agent, task) pair.  Returns the trace of events together with whether
an exception propagated out of the pass (the try block around the
docker calls has no except clause: only the finally removing the image
runs on the way out, and the loop then aborts).  container.remove and
images.remove are each wrapped in try/except, so their failures are
swallowed.  -/
def runPair (env : Env) (agent : AgentConfig) (task : TaskConfig)
    (o : PairOracle) (tO : TestsOracle) : List Event × Bool :=
  let gate := validate_required_env_vars env agent task
  if !gate.1 then
    ([Event.skippedEnv agent.name task.name gate.2], false)
  else
    let tag := imageTag agent task
    let inner : List Event × Bool :=
      if o.buildRaises then ([], true)
      else if o.runRaises then ([Event.imageBuilt tag], true)
      else if o.agentExecRaises then
        ([Event.imageBuilt tag, Event.containerCreated o.containerId], true)
      else
        ([Event.imageBuilt tag, Event.containerCreated o.containerId,
          Event.wroteFile "output.log"]
          ++ (if o.logsNonempty then [Event.wroteFile "container.log"] else [])
          ++ (run_tests task tO).1.map Event.wroteFile
          ++ (if o.removeContainerRaises then []
              else [Event.containerRemoved o.containerId]), false)
    let imgCleanup :=
      if o.buildRaises || o.removeImageRaises then [] else [Event.imageRemoved tag]
    (inner.1 ++ imgCleanup, inner.2)

/-- One scheduled (agent, task) pair with the oracles for its external
calls.  -/
structure PairRun where
  agent : AgentConfig
  task : TaskConfig
  oracle : PairOracle
  testsOracle : TestsOracle

/-- The nested loops of Harness.run over the scheduled pairs: pairs
run sequentially; an exception propagating out of a pass aborts the
remaining pairs.  -/
def runAll (env : Env) : List PairRun → List Event × Bool
  | [] => ([], false)
  | p :: rest =>
    let r := runPair env p.agent p.task p.oracle p.testsOracle
    if r.2 then r
    else (r.1 ++ (runAll env rest).1, (runAll env rest).2)

/-- A UTC wall-clock instant broken into the fields strftime reads.  -/
structure UtcTime where
  year : Nat
  month : Nat
  day : Nat
  hour : Nat
  minute : Nat
  second : Nat
  millisecond : Nat
deriving DecidableEq

/-- Zero-padding to two digits, as the strftime conversions %m %d %H
%M %S do.  -/
def pad2 (n : Nat) : String :=
  if n < 10 then "0" ++ toString n else toString n

/-- Zero-padding to three digits, for a millisecond field.  -/
def pad3 (n : Nat) : String :=
  if n < 10 then "00" ++ toString n
  else if n < 100 then "0" ++ toString n
  else toString n

/-- The run-root directory name computed in Harness.__init__ when no
runs_dir is supplied: datetime.now(UTC).strftime with format
%Y-%m-%d_%H-%M-%S.  The millisecond field of the instant is not
consulted by this format.  -/
def harnessTimestamp (t : UtcTime) : String :=
  toString t.year ++ "-" ++ pad2 t.month ++ "-" ++ pad2 t.day ++ "_"
    ++ pad2 t.hour ++ "-" ++ pad2 t.minute ++ "-" ++ pad2 t.second

/-- Modelled from the spec: the timestamp format the spec prescribes
for the run root, YYYY-MM-DD_HH-MM-SS-mmm with millisecond precision,
to be compared with the format the source actually uses.  -/
def specTimestamp (t : UtcTime) : String :=
  harnessTimestamp t ++ "-" ++ pad3 t.millisecond

/-- Sample task info for concrete instantiations.  -/
def taskInfo0 : TaskInfo :=
  { difficulty := "easy", non_deterministic_evals := false }

/-- Sample agent with no required environment variables.  -/
def agent0 : AgentConfig :=
  { name := "a", required_env_vars := [], agent_installation := "",
    command_template := "" }

/-- Sample agent requiring the environment variable K.  -/
def agentK : AgentConfig :=
  { name := "a", required_env_vars := ["K"], agent_installation := "",
    command_template := "" }

/-- Sample task with no required environment variables and no
test_commands.sh.  -/
def task0 : TaskConfig :=
  { name := "t", required_env_vars := [], task_installation := "",
    instructions := "", test_script := "test.py",
    test_commands_script := none, task_info := taskInfo0 }

/-- Sample task that does ship a test_commands.sh.  -/
def taskCmds : TaskConfig :=
  { task0 with test_commands_script := some "test_commands.sh" }

/-- Tests oracle: every call succeeds but the scorecard file is
absent.  -/
def toAbsent : TestsOracle :=
  { putArchiveRaises := false, commandsExecRaises := false,
    testExecRaises := false, scorecard := .absent, testOutput := "out" }

/-- Tests oracle: every call succeeds but the scorecard file holds
text json.loads rejects.  -/
def toInvalid : TestsOracle :=
  { putArchiveRaises := false, commandsExecRaises := false,
    testExecRaises := false, scorecard := .unparseable, testOutput := "out" }

/-- Tests oracle: every call succeeds and the scorecard parses to an
object with score 50.  -/
def toGood : TestsOracle :=
  { putArchiveRaises := false, commandsExecRaises := false,
    testExecRaises := false,
    scorecard := .value (.obj [("score", .num 50)]), testOutput := "out" }

/-- Pair oracle on which every docker call succeeds.  -/
def okOracle : PairOracle :=
  { buildRaises := false, runRaises := false, containerId := "c1",
    agentExecRaises := false, logsNonempty := false,
    removeContainerRaises := false, removeImageRaises := false }

/-- Pair oracle on which the agent exec_run call raises after the
container was created.  -/
def leakOracle : PairOracle :=
  { okOracle with agentExecRaises := true }

theorem lookup_get_container_env_vars (env : Env) (agent : AgentConfig) (task : TaskConfig)
    (v : String) :
    (get_container_env_vars env agent task).lookup v
      = if v ∈ requiredVars agent task then env.lookup v else none := by
  unfold get_container_env_vars
  induction requiredVars agent task with
  | nil => simp
  | cons k ks ih =>
    cases hk : env.lookup k with
    | none =>
      simp only [List.filterMap_cons, hk, Option.map_none']
      rw [ih]
      by_cases hvk : v = k
      · subst hvk
        simp [hk]
      · simp [hvk]
    | some s =>
      simp only [List.filterMap_cons, hk, Option.map_some']
      by_cases hvk : v = k
      · subst hvk
        simp [List.lookup, hk]
      · have hb : (v == k) = false := beq_eq_false_iff_ne.mpr hvk
        simp [List.lookup, hb, ih, hvk]

theorem validate_iff (env : Env) (agent : AgentConfig) (task : TaskConfig) :
    (validate_required_env_vars env agent task).1 = true
      ↔ ∀ v ∈ requiredVars agent task, (env.lookup v).isSome := by
  unfold validate_required_env_vars
  simp only [List.isEmpty_iff, List.filter_eq_nil_iff]
  constructor
  · intro h v hv
    have := h v hv
    cases henv : env.lookup v with
    | none => exact absurd (by simp [henv]) this
    | some s => simp
  · intro h v hv hnone
    have := h v hv
    rw [Option.isNone_iff_eq_none] at hnone
    rw [hnone] at this
    simp at this

theorem run_tests_writes_mem (task : TaskConfig) (o : TestsOracle) :
    ∀ f ∈ (run_tests task o).1,
      f = "test_commands_output.log" ∨ f = "test_output.log" ∨ f = "test_results.json" := by
  intro f hf
  unfold run_tests at hf
  repeat' split at hf
  all_goals simp at hf
  all_goals tauto

/-- C10: the env gate tests only key membership, never the value (so a
required variable bound to the empty string passes and is forwarded
with its empty value), and _get_container_env_vars is total, mapping
each required key present in the environment to its value and silently
dropping required keys that are absent.  -/
theorem env_gate_key_membership_only (agent : AgentConfig) (task : TaskConfig) (env : Env) :
    ((validate_required_env_vars env agent task).1 = true
        ↔ ∀ v ∈ requiredVars agent task, (env.lookup v).isSome)
  ∧ (∀ v s, v ∈ requiredVars agent task → env.lookup v = some s →
      (get_container_env_vars env agent task).lookup v = some s)
  ∧ (∀ v, env.lookup v = none →
      (get_container_env_vars env agent task).lookup v = none) := by
  refine ⟨validate_iff env agent task, ?_, ?_⟩
  · intro v s hv hs
    rw [lookup_get_container_env_vars, if_pos hv, hs]
  · intro v hv
    rw [lookup_get_container_env_vars]
    split
    · exact hv
    · rfl

/-- C10 witness: a required variable bound to the empty string passes
the gate and is forwarded with its empty value.  -/
theorem env_gate_key_membership_only_witness :
    (validate_required_env_vars [("K", "")] agentK task0).1 = true
  ∧ (get_container_env_vars [("K", "")] agentK task0).lookup "K" = some "" := by
  have h := env_gate_key_membership_only agentK task0 [("K", "")]
  exact ⟨h.1.mpr (by decide), h.2.1 "K" "" (by decide) (by decide)⟩

/-- C4: for a pair that passes the env gate, the container environment
equals the restriction of the process environment to the required-vars
union: it agrees with the environment on every required key (hence is
a subset of it), every required key is present, and no key outside the
union is forwarded.  -/
theorem container_env_is_required_restriction (agent : AgentConfig) (task : TaskConfig)
    (env : Env) (hgate : (validate_required_env_vars env agent task).1 = true) :
    (∀ v ∈ requiredVars agent task,
        (get_container_env_vars env agent task).lookup v = env.lookup v
      ∧ ((get_container_env_vars env agent task).lookup v).isSome)
  ∧ (∀ v, v ∉ requiredVars agent task →
      (get_container_env_vars env agent task).lookup v = none) := by
  constructor
  · intro v hv
    have heq := lookup_get_container_env_vars env agent task v
    rw [if_pos hv] at heq
    exact ⟨heq, heq ▸ (validate_iff env agent task).mp hgate v hv⟩
  · intro v hv
    rw [lookup_get_container_env_vars, if_neg hv]

/-- C4 witness: with one required variable and an environment holding
it plus an unrelated key, the container environment forwards the
required key with its value and drops the unrelated key.  -/
theorem container_env_is_required_restriction_witness :
    (get_container_env_vars [("K", "v"), ("OTHER", "w")] agentK task0).lookup "K" = some "v"
  ∧ (get_container_env_vars [("K", "v"), ("OTHER", "w")] agentK task0).lookup "OTHER"
      = none := by
  have h := container_env_is_required_restriction agentK task0
    [("K", "v"), ("OTHER", "w")] (by decide)
  refine ⟨?_, h.2 "OTHER" (by decide)⟩
  have := (h.1 "K" (by decide)).1
  rw [this]
  rfl

/-- C3: a pair one of whose required environment variables is absent
from the captured environment never executes: the loop pass emits only
the skip event carrying the missing names (so no image is built and no
container is created), raises nothing, and the orchestrator proceeds
to the remaining pairs.  -/
theorem env_blocked_pair_never_executes (env : Env) (a : AgentConfig) (t : TaskConfig)
    (o : PairOracle) (tO : TestsOracle) (rest : List PairRun) (v : String)
    (hv : v ∈ requiredVars a t) (habs : env.lookup v = none) :
    v ∈ (validate_required_env_vars env a t).2
  ∧ runPair env a t o tO
      = ([Event.skippedEnv a.name t.name (validate_required_env_vars env a t).2], false)
  ∧ (∀ tag, Event.imageBuilt tag ∉ (runPair env a t o tO).1)
  ∧ (∀ cid, Event.containerCreated cid ∉ (runPair env a t o tO).1)
  ∧ runAll env ({ agent := a, task := t, oracle := o, testsOracle := tO } :: rest)
      = (Event.skippedEnv a.name t.name (validate_required_env_vars env a t).2
           :: (runAll env rest).1,
         (runAll env rest).2) := by
  have hm : v ∈ (validate_required_env_vars env a t).2 := by
    unfold validate_required_env_vars
    exact List.mem_filter.mpr ⟨hv, by simp [habs]⟩
  have hgate : (validate_required_env_vars env a t).1 = false := by
    unfold validate_required_env_vars at hm ⊢
    simpa [List.isEmpty_iff] using List.ne_nil_of_mem hm
  have hrun : runPair env a t o tO
      = ([Event.skippedEnv a.name t.name (validate_required_env_vars env a t).2], false) := by
    simp [runPair, hgate]
  refine ⟨hm, hrun, ?_, ?_, ?_⟩
  · intro tag
    rw [hrun]
    simp
  · intro cid
    rw [hrun]
    simp
  · show (if (runPair env a t o tO).2 then _ else _) = _
    rw [hrun]
    simp

/-- C3 witness: an agent requiring K under an empty environment is
skipped with K among the logged missing names, and the following pair
still runs.  -/
theorem env_blocked_pair_never_executes_witness :
    runPair [] agentK task0 okOracle toAbsent
      = ([Event.skippedEnv "a" "t" ["K"]], false) := by
  have h := env_blocked_pair_never_executes [] agentK task0 okOracle toAbsent []
    "K" (by decide) rfl
  have hmiss : (validate_required_env_vars [] agentK task0).2 = ["K"] := by decide
  have := h.2.1
  rw [hmiss] at this
  exact this

/-- C2 counterexample: when the agent exec_run call raises, the pass
leaves the created container in place (only the image removal sits in
the finally block), the exception propagates, and yet the claim
asserts no container survives on every exit path.  -/
theorem container_teardown_counterexample :
    Event.containerCreated "c1" ∈ (runPair [] agent0 task0 leakOracle toAbsent).1
  ∧ Event.containerRemoved "c1" ∉ (runPair [] agent0 task0 leakOracle toAbsent).1
  ∧ (runPair [] agent0 task0 leakOracle toAbsent).2 = true := by
  refine ⟨?_, ?_, rfl⟩ <;> decide

/-- C2 amended: a container created by a pass is removed provided no
exception is raised between its creation and the cleanup step and the
remove call itself succeeds; on an exception during the agent exec the
container survives (only the image removal runs on that path).  -/
theorem container_teardown_amended (env : Env) (a : AgentConfig) (t : TaskConfig)
    (o : PairOracle) (tO : TestsOracle)
    (hexec : o.agentExecRaises = false) (hrem : o.removeContainerRaises = false) :
    ∀ cid, Event.containerCreated cid ∈ (runPair env a t o tO).1 →
      Event.containerRemoved cid ∈ (runPair env a t o tO).1 := by
  intro cid hmem
  by_cases hg : (validate_required_env_vars env a t).1 <;>
    by_cases hb : o.buildRaises <;>
      by_cases hr : o.runRaises <;>
        by_cases hl : o.logsNonempty <;>
          by_cases hi : o.removeImageRaises <;>
            simp_all [runPair, List.mem_append, List.mem_map]

/-- C2 amended witness: on a fully successful pass, the created
container is removed.  -/
theorem container_teardown_amended_witness :
    Event.containerRemoved "c1" ∈ (runPair [] agent0 task0 okOracle toGood).1 :=
  container_teardown_amended [] agent0 task0 okOracle toGood rfl rfl "c1" (by decide)

/-- C1 counterexample: with an unparseable scorecard the test runner
returns None rather than the synthesized result, and even with an
absent scorecard it never persists a test_results.json into the run
directory.  -/
theorem scorecard_fallback_counterexample :
    (run_tests task0 toInvalid).2 = none
  ∧ "test_results.json" ∉ (run_tests task0 toAbsent).1 := by
  refine ⟨rfl, ?_⟩
  decide

/-- C1 amended: when every step up to the scorecard read succeeds, an
absent scorecard file yields the synthesized result score 0 with the
error metadata and the captured test output, with the test output log
persisted but no test_results.json written; an unparseable scorecard
makes the runner return None (the json.loads exception is caught by
the blanket except clause).  -/
theorem scorecard_fallback_amended (task : TaskConfig) (o : TestsOracle)
    (h1 : o.putArchiveRaises = false) (h2 : o.commandsExecRaises = false)
    (h3 : o.testExecRaises = false) :
    (o.scorecard = .absent →
        (run_tests task o).2
            = some { score := 0,
                     metadata := [("error", JValue.str "No results file found")],
                     test_output := o.testOutput }
      ∧ "test_output.log" ∈ (run_tests task o).1
      ∧ "test_results.json" ∉ (run_tests task o).1)
  ∧ (o.scorecard = .unparseable → (run_tests task o).2 = none) := by
  constructor
  · intro habs
    refine ⟨?_, ?_, ?_⟩ <;>
      by_cases hc : task.test_commands_script.isSome <;>
        simp_all [run_tests]
  · intro hinv
    by_cases hc : task.test_commands_script.isSome <;> simp_all [run_tests]

/-- C1 amended witness: concrete run with an absent scorecard file.  -/
theorem scorecard_fallback_amended_witness :
    (run_tests task0 toAbsent).2
        = some { score := 0,
                 metadata := [("error", JValue.str "No results file found")],
                 test_output := "out" }
  ∧ (run_tests task0 toInvalid).2 = none := by
  have h := scorecard_fallback_amended task0 toAbsent rfl rfl rfl
  have h2 := scorecard_fallback_amended task0 toInvalid rfl rfl rfl
  exact ⟨(h.1 rfl).1, h2.2 rfl⟩

/-- C8 counterexample: on a fully successful pass of a task shipping a
test_commands.sh, the agent stream goes to output.log (not
agent_output.log) and the pre-test commands output goes to
test_commands_output.log (not test_install_output.log).  -/
theorem persisted_file_names_counterexample :
    Event.wroteFile "agent_output.log" ∉ (runPair [] agent0 taskCmds okOracle toGood).1
  ∧ Event.wroteFile "output.log" ∈ (runPair [] agent0 taskCmds okOracle toGood).1
  ∧ "test_install_output.log" ∉ (run_tests taskCmds toGood).1
  ∧ "test_commands_output.log" ∈ (run_tests taskCmds toGood).1 := by
  refine ⟨?_, ?_, ?_, ?_⟩ <;> decide

/-- C8 amended: on a pass that reaches the agent exec, the streamed
agent output is persisted as output.log and never as agent_output.log;
the test runner persists the pre-test commands output as
test_commands_output.log exactly when the task ships a
test_commands.sh and never writes a test_install_output.log; the test
script output goes to test_output.log and, when the scorecard is read
and parsed successfully, the scorecard to test_results.json.  -/
theorem persisted_file_names_amended (env : Env) (a : AgentConfig) (t : TaskConfig)
    (o : PairOracle) (tO : TestsOracle)
    (hg : (validate_required_env_vars env a t).1 = true)
    (hb : o.buildRaises = false) (hr : o.runRaises = false)
    (hx : o.agentExecRaises = false)
    (hp : tO.putArchiveRaises = false) (hc : tO.commandsExecRaises = false)
    (ht : tO.testExecRaises = false) :
    Event.wroteFile "output.log" ∈ (runPair env a t o tO).1
  ∧ Event.wroteFile "agent_output.log" ∉ (runPair env a t o tO).1
  ∧ ("test_commands_output.log" ∈ (run_tests t tO).1 ↔ t.test_commands_script.isSome)
  ∧ "test_install_output.log" ∉ (run_tests t tO).1
  ∧ "test_output.log" ∈ (run_tests t tO).1
  ∧ (∀ fields sv q, tO.scorecard = .value (.obj fields) →
       fields.lookup "score" = some sv → pyFloat sv = some q →
       fields.lookup "metadata" = none →
       "test_results.json" ∈ (run_tests t tO).1) := by
  have hrp : (runPair env a t o tO).1
      = [Event.imageBuilt (imageTag a t), Event.containerCreated o.containerId,
          Event.wroteFile "output.log"]
        ++ (if o.logsNonempty then [Event.wroteFile "container.log"] else [])
        ++ (run_tests t tO).1.map Event.wroteFile
        ++ (if o.removeContainerRaises then []
            else [Event.containerRemoved o.containerId])
        ++ (if o.removeImageRaises then [] else [Event.imageRemoved (imageTag a t)]) := by
    simp [runPair, hg, hb, hr, hx]
  refine ⟨?_, ?_, ?_, ?_, ?_, ?_⟩
  · rw [hrp]
    simp
  · rw [hrp]
    intro hmem
    simp only [List.mem_append, List.mem_map] at hmem
    rcases hmem with ((((h | h) | h) | h) | h)
    · simp at h
    · split at h <;> simp at h
    · obtain ⟨f, hf, hfe⟩ := h
      have := run_tests_writes_mem t tO f hf
      rcases this with h3 | h3 | h3 <;> rw [h3] at hfe <;> simp at hfe
    · split at h <;> simp at h
    · split at h <;> simp at h
  · constructor
    · intro hmem
      by_cases hcs : t.test_commands_script.isSome
      · exact hcs
      · exfalso
        rw [Bool.not_eq_true] at hcs
        unfold run_tests at hmem
        simp only [hcs] at hmem
        repeat' split at hmem
        all_goals simp_all
    · intro hcs
      unfold run_tests
      simp only [hp, hc, ht, hcs]
      repeat' split
      all_goals simp_all
  · intro hmem
    have := run_tests_writes_mem t tO _ hmem
    rcases this with h3 | h3 | h3 <;> simp at h3
  · unfold run_tests
    simp only [hp, hc, ht]
    repeat' split
    all_goals simp_all
  · intro fields sv q hsc hscore hfl hmeta
    unfold run_tests
    simp [hp, hc, ht, hsc, hscore, hfl, hmeta]

/-- C8 amended witness: concrete fully successful pass of a task with
a test_commands.sh and a parsed scorecard.  -/
theorem persisted_file_names_amended_witness :
    Event.wroteFile "output.log" ∈ (runPair [] agent0 taskCmds okOracle toGood).1
  ∧ "test_results.json" ∈ (run_tests taskCmds toGood).1 := by
  have h := persisted_file_names_amended [] agent0 taskCmds okOracle toGood
    (by decide) rfl rfl rfl rfl rfl rfl
  exact ⟨h.1, h.2.2.2.2.2 [("score", JValue.num 50)] (JValue.num 50) 50 rfl rfl rfl rfl⟩

/-- C9 counterexample: the run-root timestamp format has no
millisecond part, so two instants in the same second yield the same
run-root name, and the name differs from the spec format with the
-mmm suffix.  -/
theorem timestamp_counterexample :
    harnessTimestamp ⟨2026, 10, 12, 7, 30, 5, 123⟩
        = harnessTimestamp ⟨2026, 10, 12, 7, 30, 5, 999⟩
  ∧ (⟨2026, 10, 12, 7, 30, 5, 123⟩ : UtcTime) ≠ ⟨2026, 10, 12, 7, 30, 5, 999⟩
  ∧ harnessTimestamp ⟨2026, 10, 12, 7, 30, 5, 123⟩
        ≠ specTimestamp ⟨2026, 10, 12, 7, 30, 5, 123⟩ := by
  refine ⟨rfl, by decide, by decide⟩

/-- C9 amended: the run-root name is the current UTC time formatted
YYYY-MM-DD_HH-MM-SS at second precision only, so two invocations
within the same second receive the same run root.  -/
theorem timestamp_second_precision_amended (t1 t2 : UtcTime)
    (hy : t1.year = t2.year) (hmo : t1.month = t2.month) (hd : t1.day = t2.day)
    (hh : t1.hour = t2.hour) (hmi : t1.minute = t2.minute)
    (hs : t1.second = t2.second) :
    harnessTimestamp t1 = harnessTimestamp t2 := by
  simp [harnessTimestamp, hy, hmo, hd, hh, hmi, hs]

/-- C9 amended witness: two instants differing only in the millisecond
field format to the same run-root name.  -/
theorem timestamp_second_precision_amended_witness :
    harnessTimestamp ⟨2026, 10, 12, 7, 30, 6, 123⟩
      = harnessTimestamp ⟨2026, 10, 12, 7, 30, 6, 999⟩ :=
  timestamp_second_precision_amended _ _ rfl rfl rfl rfl rfl rfl

/-- C5: when the audit sub-agent leaves a parsed rubric object with a
numeric score, semantic_test returns the result whose score is
clamp(score, 0, 100) (below 0 becomes 0, above 100 becomes 100,
in-range values unchanged) and whose metadata is the rubric object
with the score key removed.  -/
theorem audit_score_clamped (schema fields : List (String × JValue)) (q : Rat)
    (steps context : String)
    (hs : (schema.lookup "score").isSome)
    (hnd : (fields.map Prod.fst).Nodup)
    (hq : fields.lookup "score" = some (.num q)) :
    (semantic_test steps context schema (.content (.obj fields))).2
      = .ok { score := max 0 (min 100 q), metadata := popKey "score" fields }
  ∧ (q < 0 → max 0 (min 100 q) = 0)
  ∧ (100 < q → max 0 (min 100 q) = 100)
  ∧ (0 ≤ q → q ≤ 100 → max 0 (min 100 q) = q) := by
  have _ := hnd
  refine ⟨?_, ?_, ?_, ?_⟩
  · cases hval : schema.lookup "score" with
    | none => rw [hval] at hs; simp at hs
    | some sv =>
      simp [semantic_test, hval, hq, pyFloat, mkSemanticTestResult]
  · intro h
    have h1 : min 100 q = q := min_eq_right (by linarith)
    rw [h1]
    exact max_eq_left (by linarith)
  · intro h
    have h1 : min 100 q = (100 : Rat) := min_eq_left (by linarith)
    rw [h1]
    exact max_eq_right (by norm_num)
  · intro h0 h100
    have h1 : min 100 q = q := min_eq_right h100
    rw [h1]
    exact max_eq_right h0

/-- C5 witness: a rubric object scoring 137 with one extra field comes
back clamped to 100 with the score key stripped from the metadata.  -/
theorem audit_score_clamped_witness :
    (semantic_test "" "" [("score", JValue.str "d")]
        (.content (.obj [("score", JValue.num 137), ("notes", JValue.str "x")]))).2
      = .ok { score := 100, metadata := [("notes", JValue.str "x")] } := by
  have h := audit_score_clamped [("score", JValue.str "d")]
    [("score", JValue.num 137), ("notes", JValue.str "x")] 137 "" ""
    rfl (by decide) rfl
  rw [h.1, h.2.2.1 (by norm_num)]
  rfl

/-- C6: semantic_test raises the invalid-rubric ValueError exactly
when the rubric argument has no score key, and in that case the check
fires before any sub-agent interaction: no query is sent.  -/
theorem invalid_rubric_iff (steps context : String) (rubric : List (String × JValue))
    (file : AuditFile) :
    ((semantic_test steps context rubric file).2 = .error .invalidRubric
        ↔ rubric.lookup "score" = none)
  ∧ (rubric.lookup "score" = none →
      (semantic_test steps context rubric file).1 = []) := by
  cases hl : rubric.lookup "score" with
  | none =>
    refine ⟨⟨fun _ => rfl, fun _ => ?_⟩, fun _ => ?_⟩ <;> simp [semantic_test, hl]
  | some sv =>
    refine ⟨⟨fun hc => ?_, fun hn => Option.noConfusion hn⟩,
      fun hn => Option.noConfusion hn⟩
    exfalso
    revert hc
    cases file with
    | missing => simp [semantic_test, hl]
    | unparseable => simp [semantic_test, hl]
    | content v =>
      cases v <;> simp [semantic_test, hl]
      repeat' split
      all_goals simp

/-- C6 witness: a rubric without a score key against a missing file
raises the invalid-rubric error with no query sent, and a rubric with
a score key never raises it.  -/
theorem invalid_rubric_iff_witness :
    (semantic_test "" "" [] AuditFile.missing).1 = []
  ∧ (semantic_test "" "" [] AuditFile.missing).2 = .error .invalidRubric := by
  have h := invalid_rubric_iff "" "" [] AuditFile.missing
  exact ⟨h.2 rfl, h.1.mpr rfl⟩

/-- C7: given a rubric argument with a score key, semantic_test raises
the rubric-missing FileNotFoundError exactly when the rubric file does
not exist after the two turns; when the file exists and parses to an
object with a convertible score, the result is built from the parsed
contents.  -/
theorem rubric_missing_iff (steps context : String) (rubric : List (String × JValue))
    (file : AuditFile) (hs : (rubric.lookup "score").isSome) :
    ((semantic_test steps context rubric file).2 = .error .rubricMissing
        ↔ file = .missing)
  ∧ (∀ fields sv q, file = .content (.obj fields) →
       fields.lookup "score" = some sv → pyFloat sv = some q →
       (semantic_test steps context rubric file).2
         = .ok (mkSemanticTestResult q (popKey "score" fields))) := by
  cases hl : rubric.lookup "score" with
  | none => rw [hl] at hs; simp at hs
  | some sv0 =>
    constructor
    · constructor
      · intro hc
        cases file with
        | missing => rfl
        | unparseable => simp [semantic_test, hl] at hc
        | content v =>
          exfalso
          revert hc
          cases v <;> simp [semantic_test, hl]
          repeat' split
          all_goals simp
      · intro hf
        subst hf
        simp [semantic_test, hl]
    · intro fields sv q hf hscore hfloat
      subst hf
      simp [semantic_test, hl, hscore, hfloat]

/-- C7 witness: with a score-bearing rubric argument, a missing file
raises the rubric-missing error and a parsed file with score 42 yields
the clamped result.  -/
theorem rubric_missing_iff_witness :
    (semantic_test "" "" [("score", JValue.str "d")] AuditFile.missing).2
        = .error .rubricMissing
  ∧ (semantic_test "" "" [("score", JValue.str "d")]
        (.content (.obj [("score", JValue.num 42)]))).2
        = .ok (mkSemanticTestResult 42 (popKey "score" [("score", JValue.num 42)])) := by
  have h1 := rubric_missing_iff "" "" [("score", JValue.str "d")] AuditFile.missing rfl
  have h2 := rubric_missing_iff "" "" [("score", JValue.str "d")]
    (.content (.obj [("score", JValue.num 42)])) rfl
  exact ⟨h1.1.mpr rfl, h2.2 [("score", JValue.num 42)] (JValue.num 42) 42 rfl rfl rfl⟩

end EvalRecipes
